import Mathlib

/-!
Verification development for the Tiny Instagram operational scripts
(`timeline.py` and `delete.py`).

The scripts are shallowly embedded:

* The external datastore client is a record of query functions; a query that
  can raise is a function into `Except String _` (the `String` is the
  stringified exception message).
* Wall-clock time is an oracle parameter: `execute_timeline_request` receives
  the elapsed duration of the request it performs (a rational number of
  seconds), since timing itself is not computable from the code.
* The CSV output file is `Option (List Row)` where a `Row` is the list of
  cell strings of one line: `none` models an absent file.  Fields written by
  the script never need CSV quoting (they are decimal digits or `"<n>ms"`),
  so rows-of-cells is a faithful model of the file's text.
* Python's `str()` on a nonnegative int is modelled by `pyStrNat`
  (decimal digits) and `int()` on a string by `parsePyInt` (optional sign
  followed by decimal digits; Python additionally strips whitespace and
  allows underscores, which never occurs on the inputs considered here).
* Python's `sorted(..., reverse=True)` is a stable descending sort, modelled
  with `List.mergeSort` (also stable) on the `created` key.
* The iteration order of the Python set `{*follows, user}` is unspecified;
  `followSet` fixes one deduplicated enumeration of that set.
-/

namespace TinyInsta

/-- A `Post` entity: an `author` (user name) and a `created` timestamp,
modelled as an integer timestamp; the payload is opaque and omitted. -/
structure Post where
  author : String
  created : Int
deriving DecidableEq, Repr

/-- A `User` entity: carries the `follows` attribute, a list of user names
(`user_entity.get('follows', [])` in `get_timeline`). -/
structure UserEntity where
  follows : List String
deriving DecidableEq, Repr

/-- The managed datastore client, as consumed by `timeline.py`:

* `getUser u` models `client.get(client.key('User', u))`;
* `hasGql` models `hasattr(client, 'gql')`;
* `gqlFetch authors limit` models the whole strategy-1 pipeline
  (`client.gql(...)`, binding `authors`, `list(gql.fetch(limit=limit))`),
  `.error e` when any of it raises;
* `queryIn authors limit` models the strategy-2 structured query with an
  `("author", "IN", authors)` filter, order `['-created']`, fetch bound to
  `limit`;
* `queryEq author limit` models one strategy-3 per-author query with an
  `("author", "=", author)` filter, order `['-created']`, fetch bound to
  `limit`. -/
structure Client where
  getUser : String → Option UserEntity
  hasGql : Bool
  gqlFetch : List String → Nat → Except String (List Post)
  queryIn : List String → Nat → Except String (List Post)
  queryEq : String → Nat → Except String (List Post)

/-- The follow-set computed at the top of `get_timeline`:
`follows = list({*follows, user})` after `follows` is read from the user
entity (empty when the entity is absent).  The Python set's iteration order
is unspecified; `List.dedup` of `follows ++ [user]` is one enumeration of
the same set. -/
def followSet (c : Client) (user : String) : List String :=
  ((match c.getUser user with
    | some ue => ue.follows
    | none => []) ++ [user]).dedup

/-- The comparator of the strategy-3 merge:
`sorted(posts, key=lambda p: p.get('created'), reverse=True)` keeps `a`
before `b` when `a.created ≥ b.created`. -/
def createdDesc (a b : Post) : Bool :=
  decide (b.created ≤ a.created)

/-- Strategy 3's fan-out loop: `for author in follows: posts.extend(
list(q.fetch(limit=limit)))`.  The first per-author query that raises
aborts the loop and the error propagates (partial results are discarded). -/
def fanout (c : Client) (authors : List String) (limit : Nat) :
    Except String (List Post) :=
  match authors with
  | [] => .ok []
  | a :: rest =>
    match c.queryEq a limit with
    | .error e => .error e
    | .ok ps => (fanout c rest limit).map (fun tail => ps ++ tail)

/-- Strategy 3 in full: fan out over the authors, then
`sorted(posts, key=..., reverse=True)[:limit]`. -/
def fanoutMerge (c : Client) (authors : List String) (limit : Nat) :
    Except String (List Post) :=
  (fanout c authors limit).map
    (fun posts => (posts.mergeSort createdDesc).take limit)

/-- `get_timeline(user, limit)` of `timeline.py`:

* empty user: return `[]`;
* build the follow-set;
* strategy 1 (query language) only when the client has the capability,
  any error swallowed;
* strategy 2 (structured `IN` filter), any error swallowed into
* strategy 3 (per-author fan-out and client-side merge), whose errors
  propagate. -/
def get_timeline (c : Client) (user : String) (limit : Nat := 20) :
    Except String (List Post) :=
  if user = "" then .ok []
  else
    let follows := followSet c user
    let strat1 : Option (List Post) :=
      if c.hasGql then
        match c.gqlFetch follows limit with
        | .ok tl => some tl
        | .error _ => none
      else none
    match strat1 with
    | some tl => .ok tl
    | none =>
      match c.queryIn follows limit with
      | .ok tl => .ok tl
      | .error _ => fanoutMerge c follows limit

/-- One load-test result record, as built by `execute_timeline_request`. -/
structure RequestResult where
  user : String
  duration : Rat
  success : Bool
  posts_count : Nat
  error : Option String
deriving DecidableEq, Repr

/-- `execute_timeline_request(user, limit)`: runs the resolver inside
`try/except`, so it is total — a raised error becomes a failure record.
`dur` is the measured wall-clock elapsed time (`time.time() - start`),
supplied as an oracle. -/
def execute_timeline_request (c : Client) (user : String) (limit : Nat)
    (dur : Rat) : RequestResult :=
  match get_timeline c user limit with
  | .ok result =>
    { user := user, duration := dur, success := true
      posts_count := result.length, error := none }
  | .error e =>
    { user := user, duration := dur, success := false
      posts_count := 0, error := some e }

/-! ### Decimal strings: Python `str()` and `int()` on integers -/

/-- The decimal digit character for `d < 10` (any other input is junk). -/
def digitOf : Nat → Char
  | 0 => '0'
  | 1 => '1'
  | 2 => '2'
  | 3 => '3'
  | 4 => '4'
  | 5 => '5'
  | 6 => '6'
  | 7 => '7'
  | 8 => '8'
  | 9 => '9'
  | _ => '*'

/-- Least-significant-first decimal digits, with explicit fuel (structural
recursion keeps the function kernel-computable; any fuel of at least the
number of digits gives the same answer). -/
def natDigitsRevAux : Nat → Nat → List Char
  | 0, _ => []
  | fuel + 1, n => if n = 0 then [] else digitOf (n % 10) :: natDigitsRevAux fuel (n / 10)

/-- Least-significant-first decimal digits of a positive number
(`natDigitsRev 0 = []`). -/
def natDigitsRev (n : Nat) : List Char :=
  natDigitsRevAux n n

/-- Python `str()` of a nonnegative integer: its decimal digits. -/
def pyStrNat (n : Nat) : String :=
  if n = 0 then "0" else String.mk (natDigitsRev n).reverse

/-- Python `str()` of an integer. -/
def pyStrInt (i : Int) : String :=
  if i < 0 then "-" ++ pyStrNat i.natAbs else pyStrNat i.natAbs

/-- The numeric value of a decimal digit character, `none` otherwise. -/
def digitVal (c : Char) : Option Nat :=
  if 48 ≤ c.toNat ∧ c.toNat ≤ 57 then some (c.toNat - 48) else none

/-- Accumulating decimal parser over characters; fails on any non-digit. -/
def parseDigitsAux : List Char → Nat → Option Nat
  | [], acc => some acc
  | c :: cs, acc =>
    match digitVal c with
    | none => none
    | some d => parseDigitsAux cs (acc * 10 + d)

/-- Parse a nonempty all-digit string (`int('')` raises in Python, hence
`none` on `[]`). -/
def parseDigits : List Char → Option Nat
  | [] => none
  | cs => parseDigitsAux cs 0

/-- Python `int()` on a string: optional sign followed by decimal digits.
(Python also strips surrounding whitespace and allows `_` separators;
neither occurs in the strings this development feeds to it.) -/
def parsePyInt (s : String) : Option Int :=
  match s.data with
  | [] => none
  | c :: cs =>
    if c = '-' then (parseDigits cs).map (fun n => -(n : Int))
    else if c = '+' then (parseDigits cs).map (fun n => (n : Int))
    else (parseDigits (c :: cs)).map (fun n => (n : Int))

/-! ### The CSV exporter (`export_to_csv`) -/

/-- One line of the output file, as its list of cell strings. -/
abbrev Row := List String

/-- The output file: `none` when absent, otherwise its rows in order. -/
abbrev FileState := Option (List Row)

/-- The rows of a possibly-absent file. -/
def fileRows (f : FileState) : List Row :=
  f.getD []

/-- The header line `PARAM, AVG_TIME, RUN, FAILED`. -/
def headerRow : Row :=
  ["PARAM", "AVG_TIME", "RUN", "FAILED"]

/-- `successful = [r for r in results if r['success']]`. -/
def sucOf (results : List RequestResult) : List RequestResult :=
  results.filter (fun r => r.success)

/-- `failed = [r for r in results if not r['success']]`. -/
def failOf (results : List RequestResult) : List RequestResult :=
  results.filter (fun r => !r.success)

/-- `statistics.mean`, exactly, on rationals. -/
def ratMean (l : List Rat) : Rat :=
  l.sum / l.length

/-- Python `int()` applied to a rational: truncation toward zero. -/
def truncToInt (q : Rat) : Int :=
  q.num.tdiv q.den

/-- `avg_time_ms = int(statistics.mean([r['duration'] * 1000 for r in
successful])) if successful else 0`. -/
def avgTimeMs (results : List RequestResult) : Int :=
  if sucOf results ≠ [] then
    truncToInt (ratMean ((sucOf results).map (fun r => r.duration * 1000)))
  else 0

/-- `failed_flag = 1 if len(failed) > 0 else 0`. -/
def failedFlag (results : List RequestResult) : Nat :=
  if 0 < (failOf results).length then 1 else 0

/-- The single data line written per export:
`writer.writerow([param, f"{avg_time_ms}ms", run_number, failed_flag])`. -/
def summaryRow (results : List RequestResult) (param : Nat) (run : Int) : Row :=
  [pyStrNat param, pyStrInt (avgTimeMs results) ++ "ms", pyStrInt run,
    pyStrNat (failedFlag results)]

/-- `csv.DictReader` cell access `r[col]` for a data `row` under `header`:
outer `none` models a `KeyError` (the column is not among the field names),
inner `none` models the `restval` `None` filled in when the row is shorter
than the header. -/
def dictGet (header row : List String) (col : String) : Option (Option String) :=
  match header.indexOf? col with
  | none => none
  | some i => if h : i < row.length then some (some (row.get ⟨i, h⟩)) else some none

/-- Outcome of one iteration of the run-number scan
`[int(r['RUN']) for r in rows if r['PARAM'] == str(param)]` on one row. -/
inductive RowScan where
  | raise
  | skip
  | run (k : Int)
deriving DecidableEq, Repr

/-- Scan one row: look up `PARAM` (a `KeyError` raises; a filled-in `None`
compares unequal to `str(param)` and the row is skipped); on a match, look up
`RUN` and parse it with `int()` (a `KeyError`, a `None` value or an unparsable
string raises). -/
def rowRun (param : Nat) (header row : List String) : RowScan :=
  match dictGet header row "PARAM" with
  | none => .raise
  | some none => .skip
  | some (some v) =>
    if v = pyStrNat param then
      match dictGet header row "RUN" with
      | none => .raise
      | some none => .raise
      | some (some rv) =>
        match parsePyInt rv with
        | none => .raise
        | some k => .run k
    else .skip

/-- The whole comprehension over the data rows; `none` models the scan
raising somewhere (which aborts it entirely). -/
def scanData (param : Nat) (header : List String) : List Row → Option (List Int)
  | [] => some []
  | row :: rest =>
    match rowRun param header row with
    | .raise => none
    | .skip => scanData param header rest
    | .run k => (scanData param header rest).map (fun ks => k :: ks)

/-- The run-number computation of `export_to_csv`: `run_number = 1`; when the
file exists, read it with `csv.DictReader` (first row = field names), collect
`int(r['RUN'])` over rows with `r['PARAM'] == str(param)`, and use
`max(matching_rows) + 1` when nonempty; any exception anywhere leaves 1. -/
def computeRunNumber (param : Nat) (f : FileState) : Int :=
  match f with
  | none => 1
  | some rows =>
    match rows with
    | [] => 1
    | header :: data =>
      match scanData param header data with
      | none => 1
      | some [] => 1
      | some (k :: ks) => ks.foldl max k + 1

/-- `export_to_csv(results, concurrent_users, requests_per_user, limit,
output_file)` as a transformation of the file state: an empty result list is
not exported at all; otherwise the header is written exactly when the file
did not exist, followed by the single summary row.  (`requests_per_user` and
`limit` are accepted and unused by the source as well; file I/O errors are
outside the model.) -/
def export_to_csv (results : List RequestResult) (param : Nat)
    (f : FileState) : FileState :=
  if results = [] then f
  else
    let run := computeRunNumber param f
    let row := summaryRow results param run
    match f with
    | none => some [headerRow, row]
    | some rows => some (rows ++ [row])

/-- One export call of an interleaving: its result list and its
`concurrent_users` parameter. -/
structure ExportCall where
  results : List RequestResult
  param : Nat

/-- A sequence of export calls applied to a file state, in order. -/
def runExports (calls : List ExportCall) (f : FileState) : FileState :=
  calls.foldl (fun acc c => export_to_csv c.results c.param acc) f

/-- The observable of claim C5: the `RUN` cells, in file order, of the rows
whose `PARAM` cell is `str(param)`. -/
def runsFor (param : Nat) (rows : List Row) : List String :=
  rows.filterMap (fun row =>
    match row with
    | [p, _, r, _] => if p = pyStrNat param then some r else none
    | _ => none)

/-- `[1, 2, ..., k]` as integers. -/
def ramp : Nat → List Int
  | 0 => []
  | k + 1 => ramp k ++ [(k + 1 : Int)]

/-- Invariant maintained by successive exports: the output file, when
present, is the header followed by data rows, and for every parameter `p`
the run-index scan succeeds, returning exactly `[1, ..., k]` where the `k`
rows whose `PARAM` cell is `str(p)` carry `RUN` cells `"1", ..., "k"` in
file order. -/
def GoodFile : FileState → Prop
  | none => True
  | some rows => ∃ data, rows = headerRow :: data ∧
      ∀ p : Nat, ∃ k : Nat, scanData p headerRow data = some (ramp k) ∧
        runsFor p data = (ramp k).map pyStrInt

/-! ### The load driver (`run_user_requests`, `run_single_test`) -/

/-- `user_names = [f"{user_prefix}{i}" for i in range(1, concurrent_users + 1)]`. -/
def userNames (pre : String) (n : Nat) : List String :=
  (List.range n).map (fun i => pre ++ pyStrNat (i + 1))

/-- `run_user_requests`: `num_requests` sequential measured requests for one
user.  `dur user i` is the wall-clock oracle for that user's `i`-th request. -/
def run_user_requests (c : Client) (dur : String → Nat → Rat) (user : String)
    (numRequests : Nat) (limit : Nat) : List RequestResult :=
  (List.range numRequests).map
    (fun i => execute_timeline_request c user limit (dur user i))

/-- `run_single_test`: one task per synthesized user, each contributing its
`run_user_requests` results.  The thread pool's completion order is
nondeterministic; the model collects results in user order (no property below
depends on the order of `all_results`). -/
def run_single_test (c : Client) (dur : String → Nat → Rat)
    (concurrentUsers requestsPerUser : Nat) (pre : String) (limit : Nat) :
    List RequestResult :=
  (userNames pre concurrentUsers).flatMap
    (fun u => run_user_requests c dur u requestsPerUser limit)

/-! ### The deletion utility (`delete.py`) -/

/-- The `delete_all_posts` loop over a store holding `n` `Post` entities,
with batch size `b + 1` (the source's fixed batch size 500 is `b = 499`;
writing the batch as a successor keeps every fetch nonempty while entities
remain, which is what terminates the loop).  Each pass fetches up to the
batch size of key-only results, deletes all of them in a transaction, and
the loop exits on the first empty fetch.  The returned list is the sizes of
the delete passes, in order. -/
def deletePasses (b : Nat) (n : Nat) : List Nat :=
  if h : n = 0 then []
  else min (b + 1) n :: deletePasses b (n - min (b + 1) n)
termination_by n
decreasing_by
  have hb : 0 < min (b + 1) n := by
    have := Nat.pos_of_ne_zero h
    omega
  omega

/-- `delete_all_posts()` with the source's fixed `batch_size=500`, on a store
of `n` posts: the sizes of the delete passes. -/
def delete_all_posts (n : Nat) : List Nat :=
  deletePasses 499 n

/-! ### Concrete instances used to exercise the theorems -/

/-- A tiny concrete post store. -/
def demoPosts : List Post :=
  [⟨"alice", 5⟩, ⟨"bob", 9⟩, ⟨"alice", 7⟩]

/-- A client whose per-author queries answer from `demoPosts`. -/
def demoQueryEq (a : String) (limit : Nat) : Except String (List Post) :=
  .ok ((demoPosts.filter (fun p => p.author = a)).take limit)

/-- A client on which every strategy raises (a fully failing backend). -/
def cErr : Client where
  getUser := fun _ => none
  hasGql := true
  gqlFetch := fun _ _ => .error "gql boom"
  queryIn := fun _ _ => .error "in boom"
  queryEq := fun _ _ => .error "boom"

/-- A client with no query-language capability whose `IN` filter raises and
whose per-author queries succeed, forcing the strategy-3 fan-out. -/
def cFan : Client where
  getUser := fun u => if u = "alice" then some ⟨["bob"]⟩ else none
  hasGql := false
  gqlFetch := fun _ _ => .error "gql unsupported"
  queryIn := fun _ _ => .error "IN filter unsupported"
  queryEq := demoQueryEq

/-- The per-author answers of `cFan`, as a plain function. -/
def fFan (a : String) : List Post :=
  (demoPosts.filter (fun p => p.author = a)).take 20

/-- A one-request result list (a single failed request). -/
def demoRes : List RequestResult :=
  [⟨"u", 0, false, 0, some "boom"⟩]

/-- Interleaved export calls: parameters 5, 7, 5 in that order. -/
def demoCalls : List ExportCall :=
  [⟨demoRes, 5⟩, ⟨demoRes, 7⟩, ⟨demoRes, 5⟩]

/-- A healthy client whose query-language strategy succeeds. -/
def cOk : Client where
  getUser := fun u => if u = "alice" then some ⟨["bob"]⟩ else none
  hasGql := true
  gqlFetch := fun _ _ => .ok [⟨"bob", 9⟩, ⟨"alice", 7⟩]
  queryIn := fun _ _ => .error "in boom"
  queryEq := demoQueryEq

/-! ### Facts about the decimal-string model -/

theorem digitVal_digitOf {d : Nat} (h : d < 10) : digitVal (digitOf d) = some d := by
  interval_cases d <;> rfl

theorem digitOf_isDigit {d : Nat} (h : d < 10) : (digitOf d).isDigit = true := by
  interval_cases d <;> rfl

theorem natDigitsRevAux_irrel :
    ∀ f1 f2 n : Nat, n ≤ f1 → n ≤ f2 →
      natDigitsRevAux f1 n = natDigitsRevAux f2 n := by
  intro f1
  induction f1 with
  | zero =>
    intro f2 n h1 _
    have h0 : n = 0 := by omega
    subst h0
    cases f2 with
    | zero => rfl
    | succ f2 => simp [natDigitsRevAux]
  | succ f1 ih =>
    intro f2 n h1 h2
    cases f2 with
    | zero =>
      have h0 : n = 0 := by omega
      subst h0
      simp [natDigitsRevAux]
    | succ f2 =>
      by_cases h0 : n = 0
      · simp [natDigitsRevAux, h0]
      · have hd : n / 10 < n := Nat.div_lt_self (Nat.pos_of_ne_zero h0) (by omega)
        simp only [natDigitsRevAux, h0, if_false]
        rw [ih f2 (n / 10) (by omega) (by omega)]

/-- The recursive unfolding of `natDigitsRev`, fuel hidden. -/
theorem natDigitsRev_eq (n : Nat) :
    natDigitsRev n =
      if n = 0 then [] else digitOf (n % 10) :: natDigitsRev (n / 10) := by
  rw [natDigitsRev, natDigitsRev]
  cases n with
  | zero => rfl
  | succ n =>
    simp only [natDigitsRevAux, Nat.succ_ne_zero, if_false]
    have hd : (n + 1) / 10 < n + 1 := Nat.div_lt_self (by omega) (by omega)
    rw [natDigitsRevAux_irrel n ((n + 1) / 10) ((n + 1) / 10) (by omega) (by omega)]

theorem natDigitsRev_all_digits (n : Nat) :
    ∀ c ∈ natDigitsRev n, c.isDigit = true := by
  induction n using Nat.strong_induction_on with
  | _ n ih =>
    intro c hc
    rw [natDigitsRev_eq] at hc
    by_cases h0 : n = 0
    · simp [h0] at hc
    · simp only [h0, if_false, List.mem_cons] at hc
      rcases hc with rfl | hc
      · exact digitOf_isDigit (Nat.mod_lt _ (by omega))
      · exact ih (n / 10) (Nat.div_lt_self (Nat.pos_of_ne_zero h0) (by omega)) c hc

theorem natDigitsRev_ne_nil {n : Nat} (h : n ≠ 0) : natDigitsRev n ≠ [] := by
  rw [natDigitsRev_eq]
  simp [h]

theorem parseDigitsAux_append (xs ys : List Char) (acc : Nat) :
    parseDigitsAux (xs ++ ys) acc =
      match parseDigitsAux xs acc with
      | none => none
      | some a => parseDigitsAux ys a := by
  induction xs generalizing acc with
  | nil => simp [parseDigitsAux]
  | cons c cs ih =>
    simp only [List.cons_append, parseDigitsAux]
    cases digitVal c with
    | none => rfl
    | some d => exact ih _

theorem parseDigitsAux_natDigitsRev (n : Nat) :
    ∀ acc, parseDigitsAux (natDigitsRev n).reverse acc =
      some (acc * 10 ^ (natDigitsRev n).length + n) := by
  induction n using Nat.strong_induction_on with
  | _ n ih =>
    intro acc
    by_cases h0 : n = 0
    · subst h0; rw [natDigitsRev_eq]; simp [parseDigitsAux]
    · rw [natDigitsRev_eq]
      simp only [h0, if_false, List.reverse_cons, List.length_cons]
      rw [parseDigitsAux_append,
        ih (n / 10) (Nat.div_lt_self (Nat.pos_of_ne_zero h0) (by omega)) acc]
      simp only [parseDigitsAux, digitVal_digitOf (Nat.mod_lt n (by omega))]
      congr 1
      have hdm := Nat.div_add_mod n 10
      ring_nf
      omega

theorem parseDigits_natDigitsRev {n : Nat} (h : n ≠ 0) :
    parseDigits (natDigitsRev n).reverse = some n := by
  have hne : (natDigitsRev n).reverse ≠ [] := by
    simpa using natDigitsRev_ne_nil h
  obtain ⟨c, cs, hrev⟩ := List.exists_cons_of_ne_nil hne
  rw [parseDigits.eq_def, hrev]
  show parseDigitsAux (c :: cs) 0 = some n
  rw [← hrev, parseDigitsAux_natDigitsRev n 0]
  simp

theorem parsePyInt_pyStrNat (n : Nat) : parsePyInt (pyStrNat n) = some (n : Int) := by
  by_cases h0 : n = 0
  · subst h0; rfl
  · rw [pyStrNat]
    simp only [h0, if_false]
    have hall := natDigitsRev_all_digits n
    rw [parsePyInt]
    match hrev : (natDigitsRev n).reverse with
    | [] => exact absurd hrev (by simpa using natDigitsRev_ne_nil h0)
    | c :: cs =>
      have hc : c.isDigit = true := by
        have : c ∈ natDigitsRev n := by
          rw [← List.mem_reverse, hrev]; exact List.mem_cons_self _ _
        exact hall c this
      have hcm : c ≠ '-' := by intro he; subst he; simp [Char.isDigit] at hc
      have hcp : c ≠ '+' := by intro he; subst he; simp [Char.isDigit] at hc
      simp only [hcm, hcp, if_false]
      rw [← hrev, parseDigits_natDigitsRev h0]
      simp

theorem parsePyInt_pyStrInt_ofNat (n : Nat) :
    parsePyInt (pyStrInt (n : Int)) = some (n : Int) := by
  rw [pyStrInt]
  simp only [Int.natAbs_ofNat]
  rw [if_neg (by omega)]
  exact parsePyInt_pyStrNat n

theorem pyStrNat_injective {a b : Nat} (h : pyStrNat a = pyStrNat b) : a = b := by
  have ha := parsePyInt_pyStrNat a
  rw [h, parsePyInt_pyStrNat b] at ha
  have h2 : ((b : Int)) = (a : Int) := Option.some.inj ha
  omega

/-- Every character of `pyStrNat n` is a decimal digit. -/
theorem pyStrNat_all_digits (n : Nat) :
    ∀ c ∈ (pyStrNat n).data, c.isDigit = true := by
  intro c hc
  rw [pyStrNat] at hc
  by_cases h0 : n = 0
  · simp [h0] at hc
    subst hc; rfl
  · simp only [h0, if_false] at hc
    exact natDigitsRev_all_digits n c (by simpa using hc)

theorem pyStrNat_ne_PARAM (n : Nat) : pyStrNat n ≠ "PARAM" := by
  intro h
  have := pyStrNat_all_digits n 'P' (by rw [h]; decide)
  simp [Char.isDigit] at this

/-! ### Helper lemmas about the Timeline Resolver -/

/-- When strategy 1 is unavailable or raises, the strategy-1 scrutinee of
`get_timeline` is `none`. -/
theorem strat1_none (c : Client) (fl : List String) (limit : Nat)
    (P : Option (List Post) → Prop)
    (h1 : c.hasGql = false ∨ ∃ e, c.gqlFetch fl limit = .error e)
    (hP : P none) :
    P (if c.hasGql then
        match c.gqlFetch fl limit with
        | .ok tl => some tl
        | .error _ => none
      else none) := by
  rcases h1 with hg | ⟨e, he⟩
  · simpa [hg] using hP
  · cases hg : c.hasGql <;> simp [hg, he, hP]

/-- Fallthrough to strategy 2: when strategy 1 is unavailable or raises and
the structured `IN` query succeeds, its result is returned. -/
theorem get_timeline_strat2 (c : Client) (user : String) (limit : Nat)
    (h : user ≠ "")
    (h1 : c.hasGql = false ∨ ∃ e, c.gqlFetch (followSet c user) limit = .error e)
    (tl : List Post) (htl : c.queryIn (followSet c user) limit = .ok tl) :
    get_timeline c user limit = .ok tl := by
  rw [get_timeline, if_neg h]
  refine strat1_none c _ limit (fun o => (match o with
    | some tl => Except.ok tl
    | none =>
      match c.queryIn (followSet c user) limit with
      | .ok tl => .ok tl
      | .error _ => fanoutMerge c (followSet c user) limit) = .ok tl) h1 ?_
  simp [htl]

/-- Fallthrough to strategy 3: when strategies 1 and 2 both fail,
`get_timeline` computes the per-author fan-out and merge. -/
theorem get_timeline_strat3 (c : Client) (user : String) (limit : Nat)
    (h : user ≠ "")
    (h1 : c.hasGql = false ∨ ∃ e, c.gqlFetch (followSet c user) limit = .error e)
    (h2 : ∃ e, c.queryIn (followSet c user) limit = .error e) :
    get_timeline c user limit = fanoutMerge c (followSet c user) limit := by
  rcases h2 with ⟨e2, he2⟩
  rw [get_timeline, if_neg h]
  refine strat1_none c _ limit (fun o => (match o with
    | some tl => Except.ok tl
    | none =>
      match c.queryIn (followSet c user) limit with
      | .ok tl => .ok tl
      | .error _ => fanoutMerge c (followSet c user) limit) =
      fanoutMerge c (followSet c user) limit) h1 ?_
  simp [he2]

/-- A successful fan-out is the concatenation of the per-author answers. -/
theorem fanout_ok_flatMap (c : Client) (limit : Nat) (f : String → List Post) :
    ∀ authors : List String, (∀ a ∈ authors, c.queryEq a limit = .ok (f a)) →
      fanout c authors limit = .ok (authors.flatMap f) := by
  intro authors
  induction authors with
  | nil => intro _; rfl
  | cons a rest ih =>
    intro hall
    rw [fanout, hall a (by simp), ih (fun x hx => hall x (by simp [hx]))]
    simp [Except.map]

/-! ### Claims about the Timeline Resolver -/

/-- C1: `get_timeline` attempts the three fetch strategies in strict order:
the query-language strategy only when the client exposes it and its success
is returned at once; an error in strategy 1 (or its absence) falls through
to the structured `IN` strategy; an error there falls through to the
per-author fan-out; and an error raised by the fan-out propagates to the
caller. -/
theorem timeline_strategy_order (c : Client) (user : String) (limit : Nat)
    (h : user ≠ "") :
    (c.hasGql = true → ∀ tl, c.gqlFetch (followSet c user) limit = .ok tl →
      get_timeline c user limit = .ok tl) ∧
    ((c.hasGql = false ∨ ∃ e, c.gqlFetch (followSet c user) limit = .error e) →
      ∀ tl, c.queryIn (followSet c user) limit = .ok tl →
      get_timeline c user limit = .ok tl) ∧
    ((c.hasGql = false ∨ ∃ e, c.gqlFetch (followSet c user) limit = .error e) →
      (∃ e, c.queryIn (followSet c user) limit = .error e) →
      get_timeline c user limit = fanoutMerge c (followSet c user) limit) ∧
    ((c.hasGql = false ∨ ∃ e, c.gqlFetch (followSet c user) limit = .error e) →
      (∃ e, c.queryIn (followSet c user) limit = .error e) →
      ∀ e3, fanout c (followSet c user) limit = .error e3 →
      get_timeline c user limit = .error e3) := by
  refine ⟨?_, ?_, ?_, ?_⟩
  · intro hg tl htl
    simp [get_timeline, h, hg, htl]
  · intro h1 tl htl
    exact get_timeline_strat2 c user limit h h1 tl htl
  · intro h1 h2
    exact get_timeline_strat3 c user limit h h1 h2
  · intro h1 h2 e3 he3
    rw [get_timeline_strat3 c user limit h h1 h2, fanoutMerge, he3]
    rfl

/-- C1 witness: on a fully failing backend the fan-out error surfaces. -/
theorem timeline_strategy_order_witness :
    get_timeline cErr "u" 5 = .error "boom" := by
  have h := timeline_strategy_order cErr "u" 5 (by decide)
  exact h.2.2.2 (Or.inr ⟨"gql boom", rfl⟩) ⟨"in boom", rfl⟩ "boom" rfl

/-- C2: when strategies 1 and 2 both fail and each per-author query answers
`f a`, `get_timeline` returns exactly the concatenation of the per-author
results, stably sorted by `created` descending and truncated to the first
`limit` elements; in particular the result has length at most `limit` and is
ordered by `created` descending. -/
theorem timeline_fanout_result (c : Client) (user : String) (limit : Nat)
    (f : String → List Post) (h : user ≠ "")
    (h1 : c.hasGql = false ∨ ∃ e, c.gqlFetch (followSet c user) limit = .error e)
    (h2 : ∃ e, c.queryIn (followSet c user) limit = .error e)
    (h3 : ∀ a ∈ followSet c user, c.queryEq a limit = .ok (f a)) :
    get_timeline c user limit =
      .ok ((((followSet c user).flatMap f).mergeSort createdDesc).take limit) ∧
    ∀ tl, get_timeline c user limit = .ok tl →
      tl.length ≤ limit ∧ tl.Pairwise (fun a b => b.created ≤ a.created) := by
  have heq : get_timeline c user limit =
      .ok ((((followSet c user).flatMap f).mergeSort createdDesc).take limit) := by
    rw [get_timeline_strat3 c user limit h h1 h2, fanoutMerge,
      fanout_ok_flatMap c limit f (followSet c user) h3]
    rfl
  refine ⟨heq, ?_⟩
  intro tl htl
  rw [heq] at htl
  have htl' := Except.ok.inj htl
  subst htl'
  constructor
  · exact List.length_take_le _ _
  · have hsort : List.Pairwise (fun a b => createdDesc a b = true)
        (((followSet c user).flatMap f).mergeSort createdDesc) := by
      refine List.sorted_mergeSort ?_ ?_ _
      · intro a b cc hab hbc
        simp only [createdDesc, decide_eq_true_eq] at *
        omega
      · intro a b
        simp only [createdDesc]
        by_cases hab : b.created ≤ a.created <;> simp [hab] <;> omega
    have := List.Pairwise.sublist (List.take_sublist limit _) hsort
    exact this.imp (fun hab => by simpa [createdDesc] using hab)

/-- C2 witness: on `cFan` (no query language, failing `IN` filter, per-author
answers from `demoPosts`) the resolver returns the merged fan-out. -/
theorem timeline_fanout_result_witness :
    get_timeline cFan "alice" 2 = .ok [⟨"bob", 9⟩, ⟨"alice", 7⟩] := by
  have h := timeline_fanout_result cFan "alice" 2 fFan (by decide)
    (Or.inl rfl) ⟨"IN filter unsupported", rfl⟩ ?_
  · refine h.1.trans ?_
    have hfs : followSet cFan "alice" = ["bob", "alice"] := by rfl
    rw [hfs]
    simp [fFan, demoPosts, List.mergeSort, createdDesc]
  · intro a ha
    have hfs : followSet cFan "alice" = ["bob", "alice"] := by rfl
    rw [hfs] at ha
    simp only [List.mem_cons, List.not_mem_nil, or_false] at ha
    rcases ha with rfl | rfl <;> rfl

/-- C3: for every non-empty user identifier, the follow-set computed by
`get_timeline` contains the requesting user and has no duplicates; when the
`User` record is absent from the datastore it is exactly `[user]`. -/
theorem followSet_self_nodup (c : Client) (user : String) (h : user ≠ "") :
    user ∈ followSet c user ∧ (followSet c user).Nodup ∧
      (c.getUser user = none → followSet c user = [user]) := by
  refine ⟨?_, ?_, ?_⟩
  · rw [followSet]
    exact List.mem_dedup.mpr (by simp)
  · exact List.nodup_dedup _
  · intro h0
    rw [followSet, h0]
    rfl

/-- C3 witness: on `cFan`, user `carol` has no `User` record, so the
follow-set is exactly `["carol"]`, contains `carol`, and is duplicate-free. -/
theorem followSet_self_nodup_witness :
    "carol" ∈ followSet cFan "carol" ∧ (followSet cFan "carol").Nodup ∧
      followSet cFan "carol" = ["carol"] := by
  have h := followSet_self_nodup cFan "carol" (by decide)
  exact ⟨h.1, h.2.1, h.2.2 rfl⟩

/-- C4: `execute_timeline_request` is total (never raises): its record
carries the measured duration in both cases; a resolver success yields
`success = true`, `posts_count` the length of the returned sequence and no
error; a resolver error yields `success = false`, `posts_count = 0` and the
stringified error message. -/
theorem execute_request_total (c : Client) (user : String) (limit : Nat)
    (dur : Rat) :
    (execute_timeline_request c user limit dur).duration = dur ∧
    (∀ tl, get_timeline c user limit = .ok tl →
      execute_timeline_request c user limit dur =
        ⟨user, dur, true, tl.length, none⟩) ∧
    (∀ e, get_timeline c user limit = .error e →
      execute_timeline_request c user limit dur =
        ⟨user, dur, false, 0, some e⟩) := by
  refine ⟨?_, ?_, ?_⟩
  · rw [execute_timeline_request]
    cases get_timeline c user limit <;> rfl
  · intro tl htl
    rw [execute_timeline_request, htl]
  · intro e he
    rw [execute_timeline_request, he]

/-- C4 witness: on the fully failing backend the request runner returns a
failure record with the fan-out's error message and the measured duration. -/
theorem execute_request_total_witness :
    execute_timeline_request cErr "u" 5 (3 / 2) =
      ⟨"u", 3 / 2, false, 0, some "boom"⟩ :=
  (execute_request_total cErr "u" 5 (3 / 2)).2.2 "boom" rfl

/-! ### Claim about the deletion utility -/

/-- Every pass deletes exactly what it fetched, so the passes of the delete
loop sum to the initial number of entities. -/
theorem deletePasses_sum (b : Nat) : ∀ n : Nat, (deletePasses b n).sum = n := by
  intro n
  induction n using Nat.strong_induction_on with
  | _ n ih =>
    rw [deletePasses]
    by_cases h : n = 0
    · simp [h]
    · have hmin : 0 < min (b + 1) n := by
        have := Nat.pos_of_ne_zero h
        omega
      rw [dif_neg h]
      rw [List.sum_cons, ih (n - min (b + 1) n) (by omega)]
      omega

/-- C9: `delete_all_posts` with batch size 500 terminates (it is a total
function of the initial store size) deleting everything: on 1200 initial
`Post` entities it performs exactly the three delete passes 500, 500, 200
(the loop then ends on the next, empty, fetch), and for every initial size
the passes sum to the whole store, leaving zero `Post` entities. -/
theorem delete_all_posts_batches :
    delete_all_posts 1200 = [500, 500, 200] ∧
    (∀ n : Nat, (delete_all_posts n).sum = n) ∧
    (∀ n : Nat, n - (delete_all_posts n).sum = 0) := by
  refine ⟨?_, fun n => deletePasses_sum 499 n, fun n => by
    rw [delete_all_posts, deletePasses_sum 499 n]; omega⟩
  rw [delete_all_posts]
  rw [deletePasses]; norm_num
  rw [deletePasses]; norm_num
  rw [deletePasses]; norm_num
  rw [deletePasses]; norm_num

/-! ### Helper lemmas about the CSV model -/

theorem parseDigits_pyStrNat (m : Nat) : parseDigits (pyStrNat m).data = some m := by
  by_cases h : m = 0
  · subst h; rfl
  · rw [pyStrNat, if_neg h]
    exact parseDigits_natDigitsRev h

theorem parsePyInt_pyStrInt (i : Int) : parsePyInt (pyStrInt i) = some i := by
  by_cases h : i < 0
  · rw [pyStrInt, if_pos h, parsePyInt]
    have hd : ("-" ++ pyStrNat i.natAbs).data = '-' :: (pyStrNat i.natAbs).data := by
      rw [String.data_append]
      rfl
    rw [hd]
    show (if ('-' : Char) = '-' then
        (parseDigits (pyStrNat i.natAbs).data).map (fun n => -(n : Int))
      else if ('-' : Char) = '+' then
        (parseDigits (pyStrNat i.natAbs).data).map (fun n => (n : Int))
      else (parseDigits ('-' :: (pyStrNat i.natAbs).data)).map (fun n => (n : Int)))
      = some i
    rw [if_pos rfl, parseDigits_pyStrNat]
    simp [abs_of_neg h]
  · rw [pyStrInt, if_neg h, parsePyInt_pyStrNat]
    congr 1
    omega

theorem dictGet_PARAM (a b c d : String) :
    dictGet headerRow [a, b, c, d] "PARAM" = some (some a) := rfl

theorem dictGet_RUN (a b c d : String) :
    dictGet headerRow [a, b, c, d] "RUN" = some (some c) := rfl

theorem rowRun_four (p : Nat) (a b c d : String) :
    rowRun p headerRow [a, b, c, d] =
      if a = pyStrNat p then
        match parsePyInt c with
        | none => RowScan.raise
        | some k => RowScan.run k
      else RowScan.skip := rfl

theorem rowRun_summaryRow (p q : Nat) (res : List RequestResult) (run : Int) :
    rowRun p headerRow (summaryRow res q run) =
      if q = p then RowScan.run run else RowScan.skip := by
  rw [summaryRow, rowRun_four, parsePyInt_pyStrInt]
  by_cases h : q = p
  · subst h
    rw [if_pos rfl, if_pos rfl]
  · rw [if_neg (fun he : pyStrNat q = pyStrNat p => h (pyStrNat_injective he)),
      if_neg h]

theorem runsFor_append (p : Nat) (l1 l2 : List Row) :
    runsFor p (l1 ++ l2) = runsFor p l1 ++ runsFor p l2 := by
  rw [runsFor, runsFor, runsFor, List.filterMap_append]

theorem runsFor_header (p : Nat) (data : List Row) :
    runsFor p (headerRow :: data) = runsFor p data := by
  have hne : ¬ (("PARAM" : String) = pyStrNat p) :=
    fun he => pyStrNat_ne_PARAM p he.symm
  simp only [runsFor, headerRow, List.filterMap_cons]
  rw [if_neg hne]

theorem runsFor_summaryRow (p q : Nat) (res : List RequestResult) (run : Int) :
    runsFor p [summaryRow res q run] =
      if q = p then [pyStrInt run] else [] := by
  by_cases h : q = p
  · subst h
    simp [runsFor, summaryRow]
  · simp only [runsFor, summaryRow, List.filterMap_cons, List.filterMap_nil]
    rw [if_neg (fun he : pyStrNat q = pyStrNat p => h (pyStrNat_injective he)),
      if_neg h]

theorem scanData_append (param : Nat) (hdr : List String) (l : List Row)
    (row : Row) :
    scanData param hdr (l ++ [row]) =
      match scanData param hdr l, rowRun param hdr row with
      | none, _ => none
      | some _, RowScan.raise => none
      | some acc, RowScan.skip => some acc
      | some acc, RowScan.run k => some (acc ++ [k]) := by
  induction l with
  | nil =>
    rw [List.nil_append]
    cases hrow : rowRun param hdr row <;> simp [scanData, hrow]
  | cons r rest ih =>
    rw [List.cons_append, scanData]
    conv_rhs => rw [scanData]
    cases hr : rowRun param hdr r with
    | raise => rfl
    | skip => exact ih
    | run k =>
      rw [ih]
      cases hs : scanData param hdr rest <;>
        cases hrow : rowRun param hdr row <;> simp

theorem ramp_length : ∀ k : Nat, (ramp k).length = k := by
  intro k
  induction k with
  | zero => rfl
  | succ k ih => simp [ramp, ih]

theorem ramp_max_foldl : ∀ k : Nat, 1 ≤ k →
    ∃ h t, ramp k = h :: t ∧ t.foldl max h = (k : Int) := by
  intro k
  induction k with
  | zero => omega
  | succ k ih =>
    intro _
    by_cases hk : k = 0
    · subst hk
      exact ⟨_, _, rfl, by norm_num⟩
    · obtain ⟨h, t, hht, hmax⟩ := ih (by omega)
      refine ⟨h, t ++ [(k : Int) + 1], ?_, ?_⟩
      · rw [ramp, hht]
        rfl
      · rw [List.foldl_append, hmax]
        show max (k : Int) ((k : Int) + 1) = ((k + 1 : Nat) : Int)
        push_cast
        omega

theorem computeRunNumber_ramp (p : Nat) (data : List Row) (k : Nat)
    (h : scanData p headerRow data = some (ramp k)) :
    computeRunNumber p (some (headerRow :: data)) = (k : Int) + 1 := by
  rw [computeRunNumber]
  rw [h]
  cases k with
  | zero => simp [ramp]
  | succ k =>
    obtain ⟨h', t, hht, hmax⟩ := ramp_max_foldl (k + 1) (by omega)
    rw [hht]
    show t.foldl max h' + 1 = ((k + 1 : Nat) : Int) + 1
    rw [hmax]

theorem failOf_ne_nil_of_no_success {results : List RequestResult}
    (hne : results ≠ []) (hs : sucOf results = []) : failOf results ≠ [] := by
  cases results with
  | nil => exact absurd rfl hne
  | cons r rest =>
    by_cases hr : r.success
    · exfalso
      have hmem : r ∈ sucOf (r :: rest) :=
        List.mem_filter.mpr ⟨List.mem_cons_self r rest, by simp [hr]⟩
      rw [hs] at hmem
      exact List.not_mem_nil r hmem
    · intro h0
      have hmem : r ∈ failOf (r :: rest) :=
        List.mem_filter.mpr ⟨List.mem_cons_self r rest, by simp [hr]⟩
      rw [h0] at hmem
      exact List.not_mem_nil r hmem

theorem length_flatMap_const {α β : Type} (l : List α) (g : α → List β)
    (k : Nat) (hone : ∀ u, (g u).length = k) :
    (l.flatMap g).length = l.length * k := by
  induction l with
  | nil => simp
  | cons x xs ih =>
    simp [List.flatMap_cons, hone, ih]
    ring

theorem ratMean_mul_1000 (l : List Rat) :
    ratMean (l.map (fun x => x * 1000)) = ratMean l * 1000 := by
  have hsum : (l.map (fun x => x * 1000)).sum = l.sum * 1000 := by
    induction l with
    | nil => simp
    | cons x xs ih => simp [ih]; ring
  rw [ratMean, ratMean, hsum, List.length_map, div_mul_eq_mul_div]

/-! ### Claims about the Reporter/Exporter -/

/-- C6 counterexample: the output file exists but has no header (its only
row is `["junk"]`); the claim requires a header to be written, yet the
export appends only the data row and the file still contains no header. -/
theorem export_header_cex :
    fileRows (export_to_csv demoRes 5 (some [["junk"]])) =
      [["junk"], ["5", "0ms", "1", "1"]] ∧
    headerRow ∉ fileRows (export_to_csv demoRes 5 (some [["junk"]])) := by
  constructor
  · decide
  · decide

/-- C6 (amended): `export_to_csv` writes the header row exactly when the
output file does not already exist — the code checks only existence, never
whether a header is present; on a fresh output path the first export with a
non-empty result list writes the header exactly once, followed by exactly
one data row. -/
theorem export_header_iff_absent (results : List RequestResult) (param : Nat)
    (hne : results ≠ []) :
    (export_to_csv results param none =
        some [headerRow, summaryRow results param 1] ∧
      summaryRow results param 1 ≠ headerRow ∧
      (fileRows (export_to_csv results param none)).count headerRow = 1) ∧
    (∀ rows, export_to_csv results param (some rows) =
        some (rows ++
          [summaryRow results param (computeRunNumber param (some rows))]) ∧
      summaryRow results param (computeRunNumber param (some rows)) ≠ headerRow) := by
  have hrowne : ∀ run : Int, summaryRow results param run ≠ headerRow := by
    intro run he
    rw [summaryRow, headerRow] at he
    injection he with h1 _
    exact pyStrNat_ne_PARAM param h1
  constructor
  · have hexp : export_to_csv results param none =
        some [headerRow, summaryRow results param 1] := by
      rw [export_to_csv, if_neg hne]
      rfl
    refine ⟨hexp, hrowne 1, ?_⟩
    rw [hexp]
    show ([headerRow, summaryRow results param 1].count headerRow) = 1
    simp [List.count_cons, hrowne 1]
  · intro rows
    refine ⟨?_, hrowne _⟩
    rw [export_to_csv, if_neg hne]

/-- C6 witness: a fresh path receives the header exactly once and a single
data row. -/
theorem export_header_iff_absent_witness :
    export_to_csv demoRes 5 none = some [headerRow, summaryRow demoRes 5 1] ∧
    (fileRows (export_to_csv demoRes 5 none)).count headerRow = 1 := by
  have h := export_header_iff_absent demoRes 5 (by decide)
  exact ⟨h.1.1, h.1.2.2⟩

/-- C7: with at least one simulated user and one request per user, every
load-test iteration yields a non-empty result list (the request runner never
raises), so the export passes its empty-results guard and appends exactly
one data row to the output file (file I/O failures are outside the model). -/
theorem iteration_appends_one_row (c : Client) (dur : String → Nat → Rat)
    (concurrentUsers requestsPerUser : Nat) (pre : String) (limit : Nat)
    (f : FileState)
    (hcu : 1 ≤ concurrentUsers) (hrpu : 1 ≤ requestsPerUser) :
    run_single_test c dur concurrentUsers requestsPerUser pre limit ≠ [] ∧
    export_to_csv
        (run_single_test c dur concurrentUsers requestsPerUser pre limit)
        concurrentUsers f =
      some ((match f with | none => [headerRow] | some rows => rows) ++
        [summaryRow
          (run_single_test c dur concurrentUsers requestsPerUser pre limit)
          concurrentUsers (computeRunNumber concurrentUsers f)]) := by
  have hone : ∀ u, (run_user_requests c dur u requestsPerUser limit).length
      = requestsPerUser := by
    intro u
    rw [run_user_requests, List.length_map, List.length_range]
  have hlen :
      (run_single_test c dur concurrentUsers requestsPerUser pre limit).length
        = concurrentUsers * requestsPerUser := by
    rw [run_single_test,
      length_flatMap_const _ _ requestsPerUser (fun u => hone u)]
    simp [userNames]
  have hne :
      run_single_test c dur concurrentUsers requestsPerUser pre limit ≠ [] := by
    intro h0
    rw [h0] at hlen
    have hpos : 0 < concurrentUsers * requestsPerUser :=
      Nat.mul_pos (by omega) (by omega)
    simp at hlen
    omega
  refine ⟨hne, ?_⟩
  rw [export_to_csv, if_neg hne]
  cases f <;> rfl

/-- C7 witness: two users, one request each, on a healthy backend and a
fresh file — the export writes the header and exactly one data row. -/
theorem iteration_appends_one_row_witness :
    export_to_csv (run_single_test cOk (fun _ _ => 1) 2 1 "user" 20) 2 none =
      some [headerRow,
        summaryRow (run_single_test cOk (fun _ _ => 1) 2 1 "user" 20) 2 1] := by
  have h := iteration_appends_one_row cOk (fun _ _ => 1) 2 1 "user" 20 none
    (by norm_num) (by norm_num)
  exact h.2

/-- C8: with a non-empty result list, a zero-success export still appends a
data row with `AVG_TIME` cell `"0ms"` and `FAILED` flag `1`; with at least
one success the average is the mean of the successful durations converted to
whole milliseconds by truncation toward zero, and `FAILED = 1` exactly when
at least one request failed. -/
theorem export_stats (results : List RequestResult) (param : Nat)
    (f : FileState) (hne : results ≠ []) :
    (sucOf results = [] →
      export_to_csv results param f =
        some ((match f with | none => [headerRow] | some rows => rows) ++
          [[pyStrNat param, "0ms",
            pyStrInt (computeRunNumber param f), pyStrNat 1]])) ∧
    (sucOf results ≠ [] →
      avgTimeMs results =
        truncToInt (ratMean ((sucOf results).map (fun r => r.duration)) * 1000) ∧
      (failedFlag results = 1 ↔ failOf results ≠ [])) := by
  constructor
  · intro hs
    have hfo := failOf_ne_nil_of_no_success hne hs
    have hflag : failedFlag results = 1 := by
      rw [failedFlag, if_pos (List.length_pos.mpr hfo)]
    have havg : avgTimeMs results = 0 := by
      rw [avgTimeMs, if_neg (fun hk => hk hs)]
    have hrow : summaryRow results param (computeRunNumber param f) =
        [pyStrNat param, "0ms",
          pyStrInt (computeRunNumber param f), pyStrNat 1] := by
      rw [summaryRow, havg, hflag]
      rfl
    rw [export_to_csv, if_neg hne]
    cases f with
    | none =>
      show some [headerRow, summaryRow results param (computeRunNumber param none)]
        = _
      rw [hrow]
      rfl
    | some rows =>
      show some (rows ++ [summaryRow results param (computeRunNumber param (some rows))])
        = _
      rw [hrow]
  · intro hs
    constructor
    · rw [avgTimeMs, if_pos hs]
      have hmap : (sucOf results).map (fun r => r.duration * 1000) =
          ((sucOf results).map (fun r => r.duration)).map (fun x => x * 1000) := by
        rw [List.map_map]
        rfl
      rw [hmap, ratMean_mul_1000]
    · by_cases hf0 : failOf results = []
      · simp [failedFlag, hf0]
      · have hpos : 0 < (failOf results).length := List.length_pos.mpr hf0
        simp [failedFlag, hpos, hf0]

/-- C8 witness: a single failed request exports the row
`["5", "0ms", "1", "1"]` after the header. -/
theorem export_stats_witness :
    export_to_csv [⟨"u", 0, false, 0, some "x"⟩] 5 none =
      some [headerRow, ["5", "0ms", "1", "1"]] := by
  have h := export_stats [⟨"u", 0, false, 0, some "x"⟩] 5 none (by decide)
  exact (h.1 (by decide)).trans (by decide)

/-- C10: any raise during the run-index scan abandons the whole scan and
falls back to run index 1: a single row with an unparsable `RUN` cell, a
header missing the `PARAM` column, or a header missing the `RUN` column
each yield 1, even when a well-formed row for the same parameter carries an
arbitrarily high run value `k` — the malformed row is not merely skipped. -/
theorem run_scan_abandoned (p k : Nat) :
    computeRunNumber p (some [headerRow,
        [pyStrNat p, "1ms", pyStrNat k, "0"],
        [pyStrNat p, "2ms", "abc", "0"]]) = 1 ∧
    computeRunNumber p (some [["NOPE", "AVG_TIME", "RUN", "FAILED"],
        [pyStrNat p, "1ms", pyStrNat k, "0"]]) = 1 ∧
    computeRunNumber p (some [["PARAM", "AVG_TIME", "FAILED"],
        [pyStrNat p, "1ms", "0"]]) = 1 := by
  refine ⟨?_, ?_, ?_⟩
  · rw [computeRunNumber]
    have h1 : rowRun p headerRow [pyStrNat p, "1ms", pyStrNat k, "0"]
        = RowScan.run (k : Int) := by
      rw [rowRun_four, if_pos rfl, parsePyInt_pyStrNat]
    have h2 : rowRun p headerRow [pyStrNat p, "2ms", "abc", "0"]
        = RowScan.raise := by
      rw [rowRun_four, if_pos rfl]
      rfl
    rw [scanData, h1, scanData, h2]
    rfl
  · rw [computeRunNumber]
    have h1 : rowRun p ["NOPE", "AVG_TIME", "RUN", "FAILED"]
        [pyStrNat p, "1ms", pyStrNat k, "0"] = RowScan.raise := rfl
    rw [scanData, h1]
  · rw [computeRunNumber]
    have h1 : rowRun p ["PARAM", "AVG_TIME", "FAILED"] [pyStrNat p, "1ms", "0"]
        = RowScan.raise := by
      rw [rowRun]
      show (if pyStrNat p = pyStrNat p then
          match dictGet ["PARAM", "AVG_TIME", "FAILED"] [pyStrNat p, "1ms", "0"]
              "RUN" with
          | none => RowScan.raise
          | some none => RowScan.raise
          | some (some rv) =>
            match parsePyInt rv with
            | none => RowScan.raise
            | some k => RowScan.run k
        else RowScan.skip) = RowScan.raise
      rw [if_pos rfl]
      rfl
    rw [scanData, h1]

/-! ### The round-trip property of the run counter -/

theorem fileRows_none : fileRows none = [] := rfl

theorem fileRows_some (rows : List Row) : fileRows (some rows) = rows := rfl

/-- One export of a non-empty result list preserves the `GoodFile` invariant
and extends the current parameter's run column by exactly one cell. -/
theorem export_step_good (res : List RequestResult) (q : Nat) (f : FileState)
    (hres : res ≠ []) (hf : GoodFile f) :
    GoodFile (export_to_csv res q f) ∧
    ∀ p : Nat, (runsFor p (fileRows (export_to_csv res q f))).length =
      (runsFor p (fileRows f)).length + (if q = p then 1 else 0) := by
  cases f with
  | none =>
    have hexp : export_to_csv res q none =
        some [headerRow, summaryRow res q 1] := by
      rw [export_to_csv, if_neg hres]
      rfl
    constructor
    · rw [hexp]
      refine ⟨[summaryRow res q 1], rfl, ?_⟩
      intro p
      by_cases hpq : q = p
      · subst hpq
        refine ⟨1, ?_, ?_⟩
        · rw [scanData, rowRun_summaryRow, if_pos rfl]
          rfl
        · rw [runsFor_summaryRow, if_pos rfl]
          rfl
      · refine ⟨0, ?_, ?_⟩
        · rw [scanData, rowRun_summaryRow, if_neg hpq]
          rfl
        · rw [runsFor_summaryRow, if_neg hpq]
          rfl
    · intro p
      rw [hexp]
      show (runsFor p (headerRow :: [summaryRow res q 1])).length = _
      rw [runsFor_header, runsFor_summaryRow]
      by_cases hpq : q = p
      · rw [if_pos hpq, if_pos hpq]
        rfl
      · rw [if_neg hpq, if_neg hpq]
        rfl
  | some rows =>
    obtain ⟨data, rfl, hinv⟩ := hf
    obtain ⟨kq, hscanq, hrunsq⟩ := hinv q
    have hrun : computeRunNumber q (some (headerRow :: data)) = (kq : Int) + 1 :=
      computeRunNumber_ramp q data kq hscanq
    have hexp : export_to_csv res q (some (headerRow :: data)) =
        some ((headerRow :: data) ++ [summaryRow res q ((kq : Int) + 1)]) := by
      rw [export_to_csv, if_neg hres]
      show some ((headerRow :: data) ++
        [summaryRow res q (computeRunNumber q (some (headerRow :: data)))]) = _
      rw [hrun]
    constructor
    · rw [hexp]
      refine ⟨data ++ [summaryRow res q ((kq : Int) + 1)], rfl, ?_⟩
      intro p
      obtain ⟨kp, hscanp, hrunsp⟩ := hinv p
      by_cases hpq : q = p
      · subst hpq
        have hkk : kp = kq := by
          rw [hscanq] at hscanp
          have hr := Option.some.inj hscanp
          have hlen := congrArg List.length hr
          rw [ramp_length, ramp_length] at hlen
          omega
        refine ⟨kq + 1, ?_, ?_⟩
        · rw [scanData_append, hscanq, rowRun_summaryRow, if_pos rfl]
          rfl
        · rw [runsFor_append, hrunsp, hkk, runsFor_summaryRow, if_pos rfl]
          show _ = ((ramp (kq + 1)).map pyStrInt)
          rw [ramp, List.map_append]
          rfl
      · refine ⟨kp, ?_, ?_⟩
        · rw [scanData_append, hscanp, rowRun_summaryRow, if_neg hpq]
        · rw [runsFor_append, hrunsp, runsFor_summaryRow, if_neg hpq]
          simp
    · intro p
      rw [hexp]
      show (runsFor p ((headerRow :: data) ++ [summaryRow res q ((kq : Int) + 1)])).length
        = _
      rw [runsFor_append, List.length_append, runsFor_summaryRow]
      by_cases hpq : q = p
      · rw [if_pos hpq, if_pos hpq]
        rfl
      · rw [if_neg hpq, if_neg hpq]
        rfl

/-- Any sequence of exports of non-empty result lists preserves `GoodFile`
and adds, per parameter, as many run cells as there were exports for it. -/
theorem runExports_good : ∀ (calls : List ExportCall) (f : FileState),
    GoodFile f → (∀ cl ∈ calls, cl.results ≠ []) →
    GoodFile (runExports calls f) ∧
    ∀ p : Nat, (runsFor p (fileRows (runExports calls f))).length =
      (runsFor p (fileRows f)).length +
        (calls.filter (fun cl => cl.param = p)).length := by
  intro calls
  induction calls with
  | nil =>
    intro f hf _
    exact ⟨hf, fun p => by simp [runExports]⟩
  | cons cl rest ih =>
    intro f hf hall
    have hstep := export_step_good cl.results cl.param f
      (hall cl (List.mem_cons_self cl rest)) hf
    have hrest := ih (export_to_csv cl.results cl.param f) hstep.1
      (fun x hx => hall x (List.mem_cons_of_mem cl hx))
    have hre : runExports (cl :: rest) f =
        runExports rest (export_to_csv cl.results cl.param f) := rfl
    rw [hre]
    refine ⟨hrest.1, ?_⟩
    intro p
    rw [hrest.2 p, hstep.2 p, List.filter_cons]
    by_cases hpq : cl.param = p
    · simp [hpq]
      omega
    · simp [hpq]

/-- C5: starting from an absent output file, a sequence of exports with
non-empty result lists writes, for every `concurrentUsers` parameter `p`,
rows whose `RUN` cells are exactly `"1", "2", ..., "N"` in file order, `N`
being the number of exports with parameter `p` — regardless of interleaving
with exports for other parameters, because the next run index is one plus
the maximum `RUN` among prior rows whose `PARAM` matches (1 when none do). -/
theorem export_run_indices (calls : List ExportCall)
    (hall : ∀ cl ∈ calls, cl.results ≠ []) (p : Nat) :
    runsFor p (fileRows (runExports calls none)) =
      (ramp ((calls.filter (fun cl => cl.param = p)).length)).map pyStrInt := by
  have h := runExports_good calls none trivial hall
  have hcnt := h.2 p
  cases hfin : runExports calls none with
  | none =>
    rw [hfin] at hcnt
    rw [fileRows_none, runsFor] at hcnt
    simp only [List.filterMap_nil, List.length_nil] at hcnt
    have hc0 : (calls.filter (fun cl => cl.param = p)).length = 0 := by omega
    rw [hc0]
    rfl
  | some rows =>
    have hg := h.1
    rw [hfin] at hg hcnt
    obtain ⟨data, rfl, hinv⟩ := hg
    obtain ⟨k, hscan, hruns⟩ := hinv p
    have hk : k = (calls.filter (fun cl => cl.param = p)).length := by
      rw [fileRows_some, runsFor_header, hruns, List.length_map, ramp_length,
        fileRows_none] at hcnt
      simp only [runsFor, List.filterMap_nil, List.length_nil] at hcnt
      omega
    rw [fileRows_some, runsFor_header, hruns, hk]

/-- C5 witness: three interleaved exports (parameters 5, 7, 5) of a
non-empty result list produce run cells `"1", "2"` for parameter 5. -/
theorem export_run_indices_witness :
    runsFor 5 (fileRows (runExports demoCalls none)) = ["1", "2"] := by
  have h := export_run_indices demoCalls (by decide) 5
  exact h.trans (by decide)

end TinyInsta
